import Mathlib

/-!
Verification development for the completion adapter
(`JupyterCompletionProvider`, file `part_000`) and the raw-kernel session
registry (`RawNotebookProviderBase`, file `rawNotebookProvider.ts`) of the
vscode-jupyter sources.  The TypeScript code is embedded shallowly: pure
computations become Lean functions, the single-threaded promise scheduling is
modelled by settle times (`TimedVal`), and the registry becomes a state
machine over an explicit state record.
-/

set_option autoImplicit false

namespace JupyterSpec

/-- JS `String.fromCharCode` applies ToUint16 to its integer argument and
yields the corresponding UTF-16 code unit. -/
def jsFromCharCode (code : Int) : Char :=
  Char.ofNat ((code % 65536).toNat)

/-- Lexicographic order on code-unit sequences, as the JS `<` operator (and
the editor sort-key comparator) compares strings. -/
def ltCodeUnits : List Char → List Char → Bool
  | [], [] => false
  | [], _ :: _ => true
  | _ :: _, [] => false
  | a :: as, b :: bs =>
    if a.toNat < b.toNat then true
    else if b.toNat < a.toNat then false
    else ltCodeUnits as bs

/-- JS string comparison `a < b`. -/
def jsStringLt (a b : String) : Bool :=
  ltCodeUnits a.data b.data

/-- Embedding of `generateSortString` (`part_000`, lines 162-175).
The source comment claims: index 0 yields `AA` and index 25 yields `ZZ`.
`Math.ceil(index / 25)` equals `(index + 24) / 25` on this branch
(reached only for 25 < index < 300), and `%` agrees with JS `%` there. -/
def generateSortString (index : Int) : String :=
  if 300 ≤ index then "ZZZZZZZ"
  else if index ≤ 25 then String.mk ['A', jsFromCharCode (65 + index)]
  else String.mk [jsFromCharCode (65 + (index + 24) / 25), jsFromCharCode (65 + index % 25)]

/-- JS `Array.prototype.map` with the `(item, index)` callback shape, the
form used at `part_000` lines 92 and 102. -/
def mapIndexedFrom {α β : Type} (f : Nat → α → β) : Nat → List α → List β
  | _, [] => []
  | i, a :: rest => f i a :: mapIndexedFrom f (i + 1) rest

/-- JS `.map((item, index) => ...)` starting at index 0. -/
def mapIndexed {α β : Type} (f : Nat → α → β) (l : List α) : List β :=
  mapIndexedFrom f 0 l

/-- The editor completion-kind enum (`vscode.CompletionItemKind`), identified
with its numeric enum values. -/
abbrev CompletionItemKind := Nat

/-- `CompletionItemKind.Field` of the editor enum. -/
def CompletionItemKind.Field : CompletionItemKind := 4

/-- One element of the experimental `_jupyter_types_experimental` array.
Elements arrive untyped from the kernel, so each projection is `Option`-
valued: `some` models a field holding a value of the expected JS type
(`number` for `start`/`end`, `string` for `text`/`type`), `none` models an
absent field or one of another type, exactly what the `typeof` guards at
lines 88-89 test. -/
structure ExpItem where
  start : Option Int
  «end» : Option Int
  text : Option String
  type : Option String
deriving DecidableEq

/-- The `metadata` object of a completion reply.  Only its
`_jupyter_types_experimental` member is ever read; `some` models the member
holding an array, `none` an absent member or a non-array value
(`Array.isArray` fails on both). -/
structure Metadata where
  _jupyter_types_experimental : Option (List ExpItem)
deriving DecidableEq

/-- The `cursor` member of `INotebookCompletion`. -/
structure CursorSpan where
  start : Int
  «end» : Int
deriving DecidableEq

/-- `INotebookCompletion`, the normalized completion result: `matches` is
always present; `metadata` is `none` when the object is absent (falsy in the
`result.metadata ? ... : []` test at line 80). -/
structure INotebookCompletion where
  «matches» : List String
  cursor : CursorSpan
  metadata : Option Metadata
deriving DecidableEq

/-- The empty-result shape `{matches: [], cursor: {start: 0, end: 0},
metadata: {}}` built at lines 59, 124-128 and 154-158; the `metadata` member
is a fresh empty object, hence present but without the experimental field. -/
def emptyResult : INotebookCompletion :=
  { «matches» := [], cursor := { start := 0, «end» := 0 },
    metadata := some { _jupyter_types_experimental := none } }

/-- The produced `vscode.CompletionItem`: only the members the adapter sets
are modelled.  The replacement `Range` is kept as its pair of document
offsets, the arguments of `document.positionAt` at line 95 (the editor
position model is an external collaborator). -/
structure CompletionItem where
  label : String
  range : Option (Int × Int)
  kind : Option CompletionItemKind
  sortText : Option String
deriving DecidableEq

/-- Modelled from the spec: the table `mapJupyterKind` is imported from
`interactive-common/intellisense/conversion`, a repository file that is not
among the provided sources.  The spec describes it only as a finite
kind-mapping table, kernel completion-type tag (string) to editor
completion-kind enum value, so it is kept as an association-list parameter
of the adapter. -/
abbrev KindTable := List (String × CompletionItemKind)

/-- `Map.get` on the kind table: the mapped value, or nothing when the tag
has no entry. -/
def mapJupyterKindGet (table : KindTable) (tag : String) : Option CompletionItemKind :=
  (table.find? (fun e => e.1 == tag)).map (·.2)

/-- The `every` predicate at lines 87-90: `typeof item.start === 'number' &&
typeof item.end === 'number' && typeof item.text === 'string'`. -/
def expItemValid (item : ExpItem) : Bool :=
  item.start.isSome && item.«end».isSome && item.text.isSome

/-- The completion item built from one experimental element (lines 92-99):
label from `text`, range from `start`/`end`, kind from the table when `type`
is truthy (a nonempty string) else `CompletionItemKind.Field`, and the
rank-derived sort key. -/
def expItemToCompletion (table : KindTable) (index : Nat) (item : ExpItem) : CompletionItem :=
  { label := item.text.getD ""
    range := some (item.start.getD 0, item.«end».getD 0)
    kind :=
      match item.type with
      | some t => if t = "" then some CompletionItemKind.Field else mapJupyterKindGet table t
      | none => some CompletionItemKind.Field
    sortText := some (generateSortString index) }

/-- The completion item built from one legacy `matches` entry
(lines 102-113): label only, no range, no kind, rank-derived sort key. -/
def matchToCompletion (index : Nat) (item : String) : CompletionItem :=
  { label := item
    range := none
    kind := none
    sortText := some (generateSortString index) }

/-- Line 80: `result.metadata ? result.metadata._jupyter_types_experimental
: []` — with a falsy `metadata` the literal `[]` (an array) is used,
otherwise the member itself (which may fail `Array.isArray`). -/
def experimentMatchesOf (result : INotebookCompletion) : Option (List ExpItem) :=
  match result.metadata with
  | none => some []
  | some md => md._jupyter_types_experimental

/-- Lines 80-114: schema selection and item construction performed by
`provideCompletionItems` on a settled completion result. -/
def normalizeResult (table : KindTable) (result : INotebookCompletion) : List CompletionItem :=
  match experimentMatchesOf result with
  | some experimentMatches =>
    if result.«matches».length ≤ experimentMatches.length
        && experimentMatches.all expItemValid then
      mapIndexed (fun index item => expItemToCompletion table index item) experimentMatches
    else
      mapIndexed (fun index item => matchToCompletion index item) result.«matches»
  | none => mapIndexed (fun index item => matchToCompletion index item) result.«matches»

/-- A settled promise value together with the task-queue time at which it
settles.  The extension host is single threaded, so a race is decided purely
by these times. -/
structure TimedVal (α : Type) where
  time : Nat
  val : α
deriving DecidableEq

/-- A promise: either it settles at some time with a value, or it never
settles. -/
abbrev Prom (α : Type) := Option (TimedVal α)

/-- `Promise.race([a, b])`: the earlier branch wins; on a tie the branch
listed first does (its continuation is enqueued first). -/
def race2 {α : Type} (a b : Prom α) : Prom α :=
  match a, b with
  | none, b => b
  | some x, none => some x
  | some x, some y => if x.time ≤ y.time then some x else some y

/-- The `content` member of a `requestComplete` reply.  `matches` is an
`Option` because line 143 tests key presence (`'matches' in
result.content`); the remaining members are read only when `matches` is
present. -/
structure ReplyContent where
  «matches» : Option (List String)
  cursor_start : Int
  cursor_end : Int
  metadata : Option Metadata
deriving DecidableEq

/-- A reply of `session.requestComplete`; its `content` member may be
absent. -/
structure RpcReply where
  content : Option ReplyContent
deriving DecidableEq

/-- The slice of `IJupyterSession` that `getJupyterCompletion` consumes: the
`status` string and the `requestComplete` RPC, modelled as the promise the
call returns (`none`: the RPC never settles). -/
structure SessionEnv where
  status : String
  requestComplete : Prom RpcReply
deriving DecidableEq

/-- Modelled from the spec: `createPromiseFromCancellation` comes from
`common/cancellation`, a repository file that is not among the provided
sources.  Per the spec the RPC is raced "against the cancellation signal; if
cancelled first, resolve as no result (not an error)": with `cancelAction:
'resolve'` and `defaultValue: undefined` the promise resolves with the
default once the token fires and never settles otherwise.  A token is
modelled by the time it fires (`none`: it never does). -/
def createPromiseFromCancellation (cancelTime : Option Nat) : Prom (Option RpcReply) :=
  cancelTime.map (fun c => { time := c, val := none })

/-- Lines 142-158: the reply-to-`INotebookCompletion` mapping applied to the
winner of the inner race (`none` is the `undefined` the cancellation branch
resolves with). -/
def completionFromReply : Option RpcReply → INotebookCompletion
  | some reply =>
    match reply.content with
    | some content =>
      match content.«matches» with
      | some m =>
        { «matches» := m,
          cursor := { start := content.cursor_start, «end» := content.cursor_end },
          metadata := content.metadata }
      | none => emptyResult
    | none => emptyResult
  | none => emptyResult

/-- Embedding of `getJupyterCompletion` (lines 116-159): short-circuit to
the empty shape when the session is busy, otherwise race the RPC against the
cancellation promise and map the winner through `completionFromReply`. -/
def getJupyterCompletion (session : SessionEnv) (cancelTime : Option Nat) :
    Prom INotebookCompletion :=
  if session.status = "busy" then
    some { time := 0, val := emptyResult }
  else
    match race2 (session.requestComplete.map fun r => { time := r.time, val := some r.val })
        (createPromiseFromCancellation cancelTime) with
    | none => none
    | some w => some { time := w.time, val := completionFromReply w.val }

/-- The timer branch of the outer race (lines 66-72): it fires at the
timeout and yields the empty-result sentinel, unless the token has been
cancelled by then, in which case it yields nothing. -/
def timerBranch (cancelTime : Option Nat) (timeout : Nat) :
    TimedVal (Option INotebookCompletion) :=
  { time := timeout,
    val :=
      match cancelTime with
      | some c => if c ≤ timeout then none else some emptyResult
      | none => some emptyResult }

/-- The environment `provideCompletionItems` runs in.  `isNotebookCell` is
the `isNotebookCell(document)` test; `notebookFound` whether
`findAssociatedNotebookDocument` yields a notebook; `kernelSession` the
session of the kernel the provider looks up (`none`: no kernel or no
session); `cancelTime` when the request token fires; `timeout` the value
computed at lines 61-62 from the configured default and the environment
override (no claim concerns that computation, so the resolved value is
taken). -/
structure ProvideEnv where
  isNotebookCell : Bool
  notebookFound : Bool
  kernelSession : Option SessionEnv
  cancelTime : Option Nat
  timeout : Nat

/-- Embedding of `provideCompletionItems` (lines 34-115): the guard chain,
the outer race between the kernel call and the timer, and normalization of
the winning result.  The value is `none` when the function never returns
(both race branches pending), `some items` when it returns `items`. -/
def provideCompletionItems (table : KindTable) (env : ProvideEnv) :
    Option (List CompletionItem) :=
  if !env.isNotebookCell then some []
  else if !env.notebookFound then some []
  else
    match env.kernelSession with
    | none => some []
    | some session =>
      match race2
          ((getJupyterCompletion session env.cancelTime).map fun t =>
            { time := t.time, val := some t.val })
          (some (timerBranch env.cancelTime env.timeout)) with
      | none => none
      | some w =>
        match w.val with
        | none => some []
        | some result => some (normalizeResult table result)

/-- The `notebooks` member of `RawNotebookProviderBase`, a JS `Map` from the
canonical document key (`document.uri.toString()`) to the tracked notebook
promise.  Promises are identified by an id (`Nat`); the `===` guard of
`setNotebook` compares these identities.  A JS `Map` keeps insertion order
and holds each key once, so it is embedded as an association list with
unique keys kept in insertion order. -/
abbrev NotebookMap := List (String × Nat)

/-- `Map.get`. -/
def jsMapGet (m : NotebookMap) (k : String) : Option Nat :=
  (m.find? (fun e => e.1 == k)).map (·.2)

/-- `Map.set`: replace in place when the key exists, append otherwise. -/
def jsMapSet (m : NotebookMap) (k : String) (v : Nat) : NotebookMap :=
  match m with
  | [] => [(k, v)]
  | e :: rest => if e.1 == k then (k, v) :: rest else e :: jsMapSet rest k v

/-- `Map.delete`. -/
def jsMapDelete (m : NotebookMap) (k : String) : NotebookMap :=
  match m with
  | [] => []
  | e :: rest => if e.1 == k then rest else e :: jsMapDelete rest k

/-- `Map.values()`, in insertion order. -/
def jsMapValues (m : NotebookMap) : List Nat :=
  m.map (·.2)

/-- The body shared by the two removal handlers `setNotebook` installs
(lines 122-126 and 131-135): delete the entry for the key only when the map
still holds this exact promise under it. -/
def removeIfCurrent (m : NotebookMap) (k : String) (p : Nat) : NotebookMap :=
  if jsMapGet m k = some p then jsMapDelete m k else m

/-- The slice of `INotebook` that `dispose` consumes: the id of the
underlying execution session whose disposal it requests. -/
structure INotebook where
  session : Nat
deriving DecidableEq

/-- How a tracked notebook promise settles: rejection, or resolution with
a notebook value (possibly `undefined`, as the `n?.` chain at line 100
anticipates). -/
abbrev PromiseFate := Except Unit (Option INotebook)

/-- `Promise.all`: resolves with all values once every promise resolves and
rejects as soon as any promise rejects, settling the combined promise with
that rejection and running no continuation over the values. -/
def promiseAll {ε α : Type} : List (Except ε α) → Except ε (List α)
  | [] => .ok []
  | x :: rest =>
    match x with
    | .error e => .error e
    | .ok v =>
      match promiseAll rest with
      | .error e => .error e
      | .ok vs => .ok (v :: vs)

/-- Embedding of `dispose` (lines 97-101): await every tracked promise with
`Promise.all`, then request disposal of each resolved notebook session.
`resolve` gives each tracked promise its fate; the `ok` value is the list of
session ids whose `dispose()` was requested, in tracking order. -/
def dispose (m : NotebookMap) (resolve : Nat → PromiseFate) : Except Unit (List Nat) :=
  match promiseAll ((jsMapValues m).map resolve) with
  | .error e => .error e
  | .ok notebooks => .ok (notebooks.filterMap (fun n => n.map (·.session)))

/-- The session ids of the tracked promises that resolve to a notebook, in
tracking order — the sessions the claim expects `dispose` to dispose. -/
def resolvedSessionIds (m : NotebookMap) (resolve : Nat → PromiseFate) : List Nat :=
  (jsMapValues m).filterMap (fun p =>
    match resolve p with
    | .ok (some nb) => some nb.session
    | _ => none)

/-- Registry state: the notebook map, the `rawConnection` member (`none`
until one is created, then the id of the created `RawConnection`), and a
counter giving fresh identities to created connections, so that "the same
instance" is expressible. -/
structure RegistryState where
  notebooks : NotebookMap
  rawConnection : Option Nat
  nextConnectionId : Nat
deriving DecidableEq

/-- The registry before any operation ran. -/
def freshRegistry : RegistryState :=
  { notebooks := [], rawConnection := none, nextConnectionId := 0 }

/-- Embedding of `connect` (lines 57-69): with `getOnly` return the current
connection (possibly none) without creating one; otherwise create the
singleton if absent and return it. -/
def connect (s : RegistryState) (getOnly : Bool) : Option Nat × RegistryState :=
  if getOnly then (s.rawConnection, s)
  else
    match s.rawConnection with
    | some c => (some c, s)
    | none =>
      (some s.nextConnectionId,
        { s with rawConnection := some s.nextConnectionId,
                 nextConnectionId := s.nextConnectionId + 1 })

/-- Embedding of `getConnection` (lines 112-119): force a connection if not
created already, then return it. -/
def getConnection (s : RegistryState) : Nat × RegistryState :=
  match s.rawConnection with
  | some c => (c, s)
  | none =>
    (s.nextConnectionId,
      { s with rawConnection := some s.nextConnectionId,
               nextConnectionId := s.nextConnectionId + 1 })

/-- The operations that touch the registry state.  `setNotebookOp` is a
`setNotebook` call; `sessionDisposedOp` and `promiseRejectedOp` are the two
removal handlers that call fired for the promise it registered (the
`onDidDispose` handler and the `.catch` handler, lines 128-140), each
closing over the document key and the promise identity it was installed
with. -/
inductive RegistryOp where
  | setNotebookOp (key : String) (promId : Nat)
  | sessionDisposedOp (key : String) (promId : Nat)
  | promiseRejectedOp (key : String) (promId : Nat)
  | getNotebookOp (key : String)
  | disposeOp
  | connectOp (getOnly : Bool)
  | getConnectionOp
deriving DecidableEq

/-- The state transition of each operation.  `getNotebook` (line 93-95) is a
pure lookup; `dispose` (lines 97-101) reads the tracked promises and
requests session disposals but performs no map operation, so neither changes
the state. -/
def applyOp (s : RegistryState) : RegistryOp → RegistryState
  | .setNotebookOp k p => { s with notebooks := jsMapSet s.notebooks k p }
  | .sessionDisposedOp k p => { s with notebooks := removeIfCurrent s.notebooks k p }
  | .promiseRejectedOp k p => { s with notebooks := removeIfCurrent s.notebooks k p }
  | .getNotebookOp _ => s
  | .disposeOp => s
  | .connectOp g => (connect s g).2
  | .getConnectionOp => (getConnection s).2

/-- Run a sequence of registry operations. -/
def runOps (s : RegistryState) : List RegistryOp → RegistryState
  | [] => s
  | op :: rest => runOps (applyOp s op) rest

/-- The operations whose transition can shrink the notebook map: exactly the
two removal handlers installed by `setNotebook`. -/
def removesEntries : RegistryOp → Bool
  | .sessionDisposedOp _ _ => true
  | .promiseRejectedOp _ _ => true
  | _ => false

/-- The connection-singleton invariant: either no connection was ever
created, or exactly the first identity was and it is still held. -/
def connectionInv (s : RegistryState) : Prop :=
  (s.rawConnection = none ∧ s.nextConnectionId = 0) ∨
    (s.rawConnection = some 0 ∧ s.nextConnectionId = 1)

/-- The claim-side reading of the experimental field: the
`_jupyter_types_experimental` member itself, absent whenever `metadata` is
absent.  Written after the claim wording, to be compared with
`experimentMatchesOf`, which instead defaults the whole expression to the
array literal `[]` when `metadata` is falsy. -/
def claimExperimentField (result : INotebookCompletion) : Option (List ExpItem) :=
  result.metadata.bind (fun md => md._jupyter_types_experimental)

/-- The claim-side validity test: the experimental field is an array whose
length is at least the length of `matches` and whose elements all pass the
typing guard. -/
def claimValidExperiment (result : INotebookCompletion) : Bool :=
  match claimExperimentField result with
  | some l => result.«matches».length ≤ l.length && l.all expItemValid
  | none => false

/-- `Except.toOption` written out, to keep evaluation transparent. -/
def exceptToOption {ε α : Type} : Except ε α → Option α
  | .ok v => some v
  | .error _ => none

/-- A representative kind table for concrete evaluations: the tag
`instance` mapped to the editor `Variable` kind (enum value 5). -/
def sampleTable : KindTable := [("instance", 5)]

/-- The experimental elements of the worked example in the spec. -/
def sampleExpItems : List ExpItem :=
  [{ start := some 2, «end» := some 4, text := some "abcd", type := some "instance" },
   { start := some 2, «end» := some 4, text := some "abce", type := some "instance" }]

/-- The completion result of the worked example in the spec: two legacy
matches and a valid experimental array of the same length. -/
def sampleExperimentalResult : INotebookCompletion :=
  { «matches» := ["a", "b"], cursor := { start := 0, «end» := 0 },
    metadata := some { _jupyter_types_experimental := some sampleExpItems } }

/-- A promise environment with one rejected and one resolved tracked
promise, for evaluating `dispose`. -/
def sampleFailingResolve : Nat → PromiseFate := fun p =>
  if p = 1 then .error () else .ok (some { session := p })

/-- A promise environment where every tracked promise resolves to a live
notebook. -/
def sampleOkResolve : Nat → PromiseFate := fun p =>
  .ok (some { session := p })

/-- A well-formed kernel reply carrying legacy matches, for concrete
evaluations. -/
def sampleReply : RpcReply :=
  { content := some
      { «matches» := some ["os.environ"], cursor_start := 0, cursor_end := 9,
        metadata := some { _jupyter_types_experimental := none } } }

end JupyterSpec

namespace JupyterSpec

/-- C1: the generated sort keys are claimed to be strictly increasing under
lexicographic string comparison for indices in [0,300).  Evaluating the code
at the failing input: `generateSortString 49 = "CY"` while
`generateSortString 50 = "CA"`, so the key for rank 50 sorts strictly before
the key for rank 49, refuting strict monotonicity inside [0,300).  The last
conjunct also shows the source comment (index 25 yields `ZZ`) disagrees with
the code, which yields `AZ`. -/
theorem generateSortString_monotonicity_fails_at_50 :
    generateSortString 49 = "CY" ∧ generateSortString 50 = "CA" ∧
    jsStringLt (generateSortString 50) (generateSortString 49) = true ∧
    jsStringLt (generateSortString 49) (generateSortString 50) = false ∧
    generateSortString 25 = "AZ" := by
  refine ⟨by decide, by decide, by decide, by decide, by decide⟩

/-- Unfolding lookup over a nonempty association list. -/
theorem jsMapGet_cons (e : String × Nat) (rest : NotebookMap) (k : String) :
    jsMapGet (e :: rest) k = if e.1 = k then some e.2 else jsMapGet rest k := by
  by_cases h : e.1 = k <;> simp [jsMapGet, List.find?_cons, h]

/-- Looking a key up after `Map.set` yields the new value at that key and
leaves every other key unchanged. -/
theorem jsMapGet_jsMapSet (m : NotebookMap) (k2 : String) (v : Nat) (k : String) :
    jsMapGet (jsMapSet m k2 v) k = if k = k2 then some v else jsMapGet m k := by
  induction m with
  | nil =>
    show jsMapGet [(k2, v)] k = _
    rw [jsMapGet_cons]
    by_cases h : k = k2
    · rw [if_pos h.symm, if_pos h]
    · rw [if_neg (fun hh => h hh.symm), if_neg h]
  | cons e rest ih =>
    by_cases he : e.1 = k2
    · have hset : jsMapSet (e :: rest) k2 v = (k2, v) :: rest := by
        simp [jsMapSet, he]
      rw [hset, jsMapGet_cons, jsMapGet_cons]
      by_cases h : k = k2
      · rw [if_pos h.symm, if_pos h]
      · have hek : ¬ e.1 = k := fun hh => h (by rw [← hh, he])
        rw [if_neg (fun hh => h hh.symm), if_neg h, if_neg hek]
    · have hset : jsMapSet (e :: rest) k2 v = e :: jsMapSet rest k2 v := by
        simp [jsMapSet, he]
      rw [hset, jsMapGet_cons, ih, jsMapGet_cons]
      by_cases hek : e.1 = k
      · have hk : ¬ k = k2 := fun hh => he (by rw [hek, hh])
        rw [if_pos hek, if_neg hk, if_pos hek]
      · rw [if_neg hek, if_neg hek]

/-- Mapping a value-level function over an indexed map fuses into one
indexed map. -/
theorem map_mapIndexedFrom {α β γ : Type} (f : Nat → α → β) (g : β → γ) :
    ∀ (l : List α) (i : Nat),
      (mapIndexedFrom f i l).map g = mapIndexedFrom (fun j a => g (f j a)) i l := by
  intro l
  induction l with
  | nil => intro i; rfl
  | cons a rest ih => intro i; simp [mapIndexedFrom, ih]

/-- An indexed map whose function ignores the index is a plain map. -/
theorem mapIndexedFrom_const {α β : Type} (g : α → β) :
    ∀ (l : List α) (i : Nat), mapIndexedFrom (fun _ a => g a) i l = l.map g := by
  intro l
  induction l with
  | nil => intro i; rfl
  | cons a rest ih => intro i; simp [mapIndexedFrom, ih]

/-- `Promise.all` over promises that all resolve yields their values. -/
theorem promiseAll_ok_of_forall {ε α : Type} :
    ∀ l : List (Except ε α), (∀ x ∈ l, ∃ v, x = .ok v) →
      promiseAll l = .ok (l.filterMap exceptToOption) := by
  intro l
  induction l with
  | nil => intro _; rfl
  | cons x rest ih =>
    intro h
    obtain ⟨v, hv⟩ := h x (by simp)
    subst hv
    show (match promiseAll rest with
      | .error e => (.error e : Except ε (List α))
      | .ok vs => .ok (v :: vs)) = _
    rw [ih (fun y hy => h y (by simp [hy]))]
    simp [exceptToOption]

/-- `Promise.all` over a list containing a rejection rejects. -/
theorem promiseAll_error_of_mem {ε α : Type} :
    ∀ (l : List (Except ε α)) (e : ε), Except.error e ∈ l →
      ∃ e2, promiseAll l = .error e2 := by
  intro l
  induction l with
  | nil => intro e he; cases he
  | cons x rest ih =>
    intro e he
    cases x with
    | error e1 => exact ⟨e1, rfl⟩
    | ok v =>
      have hmem : Except.error e ∈ rest := by
        cases he with
        | tail _ h => exact h
      obtain ⟨e2, h2⟩ := ih e hmem
      refine ⟨e2, ?_⟩
      show (match promiseAll rest with
        | .error e => (.error e : Except ε (List α))
        | .ok vs => .ok (v :: vs)) = .error e2
      rw [h2]

/-- Every operation preserves the connection-singleton invariant. -/
theorem connectionInv_applyOp (s : RegistryState) (op : RegistryOp)
    (h : connectionInv s) : connectionInv (applyOp s op) := by
  cases op with
  | setNotebookOp k p => exact h
  | sessionDisposedOp k p => exact h
  | promiseRejectedOp k p => exact h
  | getNotebookOp k => exact h
  | disposeOp => exact h
  | connectOp g =>
    cases g with
    | true => exact h
    | false =>
      rcases h with ⟨h1, h2⟩ | ⟨h1, h2⟩
      · right
        constructor <;> simp [applyOp, connect, h1, h2]
      · have hs : applyOp s (.connectOp false) = s := by
          simp [applyOp, connect, h1]
        rw [hs]
        exact Or.inr ⟨h1, h2⟩
  | getConnectionOp =>
    rcases h with ⟨h1, h2⟩ | ⟨h1, h2⟩
    · right
      constructor <;> simp [applyOp, getConnection, h1, h2]
    · have hs : applyOp s .getConnectionOp = s := by
        simp [applyOp, getConnection, h1]
      rw [hs]
      exact Or.inr ⟨h1, h2⟩

/-- Running any operation sequence from an invariant state stays in the
invariant. -/
theorem connectionInv_runOps :
    ∀ (ops : List RegistryOp) (s : RegistryState), connectionInv s →
      connectionInv (runOps s ops) := by
  intro ops
  induction ops with
  | nil => intro s h; exact h
  | cons op rest ih => intro s h; exact ih _ (connectionInv_applyOp s op h)

/-- `connect` leaves the notebook map untouched. -/
theorem connect_preserves_notebooks (s : RegistryState) (g : Bool) :
    ((connect s g).2).notebooks = s.notebooks := by
  cases g with
  | true => rfl
  | false =>
    rcases hr : s.rawConnection with _ | c <;> simp [connect, hr]

/-- `getConnection` leaves the notebook map untouched. -/
theorem getConnection_preserves_notebooks (s : RegistryState) :
    ((getConnection s).2).notebooks = s.notebooks := by
  rcases hr : s.rawConnection with _ | c <;> simp [getConnection, hr]

/-- C9: for a document that is not a notebook cell, `provideCompletionItems`
returns the empty list at once, whatever the notebook lookup, the kernel
provider, the kernel RPC, the token and the timeout would do — the result is
the same for every value of those collaborator fields, so none of them is
consulted. -/
theorem provideCompletionItems_not_cell_empty :
    ∀ (table : KindTable) (nf : Bool) (ks : Option SessionEnv)
      (ct : Option Nat) (tmo : Nat),
      provideCompletionItems table
        { isNotebookCell := false, notebookFound := nf, kernelSession := ks,
          cancelTime := ct, timeout := tmo } = some [] := by
  intro table nf ks ct tmo
  rfl

/-- C5: registering `p1` for a key and then superseding it with `p2` leaves
the map holding `p2`; the removal handler installed for `p1` (fired by a
later disposal signal or rejection of the superseded session) finds that the
map no longer holds `p1` under the key and removes nothing. -/
theorem superseded_registration_not_removed :
    ∀ (m : NotebookMap) (k : String) (p1 p2 : Nat), p1 ≠ p2 →
      removeIfCurrent (jsMapSet (jsMapSet m k p1) k p2) k p1 =
        jsMapSet (jsMapSet m k p1) k p2 ∧
      jsMapGet (jsMapSet (jsMapSet m k p1) k p2) k = some p2 := by
  intro m k p1 p2 hne
  have hget : jsMapGet (jsMapSet (jsMapSet m k p1) k p2) k = some p2 := by
    rw [jsMapGet_jsMapSet]
    simp
  refine ⟨?_, hget⟩
  rw [removeIfCurrent, hget, if_neg]
  intro hcontra
  exact hne (Option.some.inj hcontra).symm

/-- Witness for C5 at a concrete map and promise pair. -/
theorem superseded_registration_not_removed_witness :
    (1 : Nat) ≠ 2 ∧
    (removeIfCurrent (jsMapSet (jsMapSet [] "docA" 1) "docA" 2) "docA" 1 =
        jsMapSet (jsMapSet [] "docA" 1) "docA" 2 ∧
      jsMapGet (jsMapSet (jsMapSet [] "docA" 1) "docA" 2) "docA" = some 2) :=
  ⟨by decide, superseded_registration_not_removed [] "docA" 1 2 (by decide)⟩

/-- C10: `dispose` performs no operation on the notebook map, so after it
completes every registered key still maps to the very promise it held; and
of all registry operations only the two removal handlers installed by
`setNotebook` can make a present key disappear.  The disposal signals that
`dispose` may in turn provoke are separate `sessionDisposedOp` transitions
of the registered handlers, not part of the `dispose` body. -/
theorem dispose_never_removes_entries :
    (∀ s : RegistryState, applyOp s .disposeOp = s) ∧
    (∀ (s : RegistryState) (op : RegistryOp) (k : String),
      removesEntries op = false → (jsMapGet s.notebooks k).isSome = true →
      (jsMapGet (applyOp s op).notebooks k).isSome = true) := by
  constructor
  · intro s
    rfl
  · intro s op k hop hsome
    cases op with
    | setNotebookOp k2 p =>
      show (jsMapGet (jsMapSet s.notebooks k2 p) k).isSome = true
      rw [jsMapGet_jsMapSet]
      by_cases h : k = k2 <;> simp [h, hsome]
    | sessionDisposedOp k2 p => cases hop
    | promiseRejectedOp k2 p => cases hop
    | getNotebookOp k2 => exact hsome
    | disposeOp => exact hsome
    | connectOp g =>
      show (jsMapGet ((connect s g).2).notebooks k).isSome = true
      rw [connect_preserves_notebooks]
      exact hsome
    | getConnectionOp =>
      show (jsMapGet ((getConnection s).2).notebooks k).isSome = true
      rw [getConnection_preserves_notebooks]
      exact hsome

/-- C6: a `getOnly` probe on a fresh registry returns no connection and
creates none; over every operation sequence the registry hands out at most
one connection identity (`nextConnectionId` never passes 1, also when the
first access goes through `getConnection`); and once a connection exists
both `connect` modes and `getConnection` return that same first instance and
keep holding it. -/
theorem connect_singleton :
    connect freshRegistry true = (none, freshRegistry) ∧
    (∀ ops : List RegistryOp, (runOps freshRegistry ops).nextConnectionId ≤ 1) ∧
    (∀ (ops : List RegistryOp) (g : Bool),
      (runOps freshRegistry ops).rawConnection ≠ none →
      (connect (runOps freshRegistry ops) g).1 = some 0 ∧
      (getConnection (runOps freshRegistry ops)).1 = 0 ∧
      ((connect (runOps freshRegistry ops) g).2).rawConnection = some 0 ∧
      ((getConnection (runOps freshRegistry ops)).2).rawConnection = some 0) := by
  have hfresh : connectionInv freshRegistry := Or.inl ⟨rfl, rfl⟩
  refine ⟨rfl, ?_, ?_⟩
  · intro ops
    rcases connectionInv_runOps ops freshRegistry hfresh with ⟨_, h2⟩ | ⟨_, h2⟩ <;>
      simp [h2]
  · intro ops g hne
    rcases connectionInv_runOps ops freshRegistry hfresh with ⟨h1, _⟩ | ⟨h1, _⟩
    · exact absurd h1 hne
    · cases g with
      | true => simp [connect, getConnection, h1]
      | false => simp [connect, getConnection, h1]

/-- Witness for C6 after one creating call. -/
theorem connect_singleton_witness :
    (runOps freshRegistry [.connectOp false]).rawConnection ≠ none ∧
    ((connect (runOps freshRegistry [.connectOp false]) true).1 = some 0 ∧
      (getConnection (runOps freshRegistry [.connectOp false])).1 = 0 ∧
      ((connect (runOps freshRegistry [.connectOp false]) true).2).rawConnection = some 0 ∧
      ((getConnection (runOps freshRegistry [.connectOp false])).2).rawConnection = some 0) :=
  ⟨by decide, connect_singleton.2.2 [.connectOp false] true (by decide)⟩

/-- C3 counterexample: two tracked promises, the first rejected and the
second resolved to a live notebook.  `Promise.all` rejects, `dispose`
propagates the rejection, and no disposal request is made at all — in
particular none for the still-resolvable session 2 — refuting the claim
that one failing session promise does not abort the best-effort disposal of
the remaining sessions. -/
theorem dispose_aborts_on_single_failure :
    dispose [("docA", 1), ("docB", 2)] sampleFailingResolve = .error () := by
  rfl

/-- C3 amended: `dispose` awaits all tracked session promises through
`Promise.all` and, when every one of them resolves, requests disposal of
each resolved session (in tracking order, skipping promises resolved to
`undefined`); but as soon as any tracked promise rejects, `dispose` rejects
and requests no disposal. -/
theorem dispose_requests_all_or_nothing :
    ∀ (m : NotebookMap) (resolve : Nat → PromiseFate),
      ((∀ p ∈ jsMapValues m, ∃ v, resolve p = .ok v) →
        dispose m resolve = .ok (resolvedSessionIds m resolve)) ∧
      ((∃ p ∈ jsMapValues m, resolve p = .error ()) →
        ∃ e, dispose m resolve = .error e) := by
  intro m resolve
  constructor
  · intro h
    have hall : ∀ x ∈ (jsMapValues m).map resolve, ∃ v, x = .ok v := by
      intro x hx
      obtain ⟨p, hp, hpx⟩ := List.mem_map.mp hx
      obtain ⟨v, hv⟩ := h p hp
      exact ⟨v, by rw [← hpx, hv]⟩
    have key : ∀ ps : List Nat,
        (ps.filterMap (exceptToOption ∘ resolve)).filterMap
            (fun n => Option.map (fun x => x.session) n) =
          ps.filterMap (fun p =>
            match resolve p with
            | .ok (some nb) => some nb.session
            | _ => none) := by
      intro ps
      induction ps with
      | nil => rfl
      | cons p rest ih =>
        cases hr : resolve p with
        | error e => simp [List.filterMap_cons, exceptToOption, Function.comp, hr, ih]
        | ok v =>
          cases v with
          | none => simp [List.filterMap_cons, exceptToOption, Function.comp, hr, ih]
          | some nb => simp [List.filterMap_cons, exceptToOption, Function.comp, hr, ih]
    rw [dispose, promiseAll_ok_of_forall _ hall, List.filterMap_map]
    show Except.ok (((jsMapValues m).filterMap (exceptToOption ∘ resolve)).filterMap
        (fun n => Option.map (fun x => x.session) n)) = _
    rw [key, resolvedSessionIds]
  · intro h
    obtain ⟨p, hp, hperr⟩ := h
    have hmem : Except.error () ∈ (jsMapValues m).map resolve := by
      rw [← hperr]
      exact List.mem_map_of_mem resolve hp
    obtain ⟨e2, h2⟩ := promiseAll_error_of_mem _ () hmem
    rw [dispose, h2]
    exact ⟨e2, rfl⟩

/-- Witness for C3 (amended) on a map whose two promises both resolve. -/
theorem dispose_requests_all_or_nothing_witness :
    (∀ p ∈ jsMapValues [("docA", 3), ("docB", 4)], ∃ v, sampleOkResolve p = .ok v) ∧
    dispose [("docA", 3), ("docB", 4)] sampleOkResolve =
      .ok (resolvedSessionIds [("docA", 3), ("docB", 4)] sampleOkResolve) :=
  ⟨fun p _ => ⟨some { session := p }, rfl⟩,
    (dispose_requests_all_or_nothing [("docA", 3), ("docB", 4)] sampleOkResolve).1
      (fun p _ => ⟨some { session := p }, rfl⟩)⟩

/-- Labels of the experimental-branch items are the `text` fields. -/
theorem exp_branch_labels (table : KindTable) (l : List ExpItem) :
    (mapIndexed (fun index item => expItemToCompletion table index item) l).map
        (fun c => c.label) =
      l.map (fun item => item.text.getD "") := by
  rw [mapIndexed, map_mapIndexedFrom]
  exact mapIndexedFrom_const (fun item : ExpItem => item.text.getD "") l 0

/-- Ranges of the experimental-branch items are the `start`/`end` spans. -/
theorem exp_branch_ranges (table : KindTable) (l : List ExpItem) :
    (mapIndexed (fun index item => expItemToCompletion table index item) l).map
        (fun c => c.range) =
      l.map (fun item => some (item.start.getD 0, item.«end».getD 0)) := by
  rw [mapIndexed, map_mapIndexedFrom]
  exact mapIndexedFrom_const
    (fun item : ExpItem => some (item.start.getD 0, item.«end».getD 0)) l 0

/-- Labels of the legacy-branch items are the matches themselves. -/
theorem legacy_branch_labels (l : List String) :
    (mapIndexed (fun index item => matchToCompletion index item) l).map
        (fun c => c.label) = l := by
  rw [mapIndexed, map_mapIndexedFrom]
  have h := mapIndexedFrom_const (fun a : String => a) l 0
  simpa using h

/-- Legacy-branch items carry no replacement range. -/
theorem legacy_branch_ranges (l : List String) :
    (mapIndexed (fun index item => matchToCompletion index item) l).map
        (fun c => c.range) = l.map (fun _ => none) := by
  rw [mapIndexed, map_mapIndexedFrom]
  exact mapIndexedFrom_const (fun _ : String => none) l 0

/-- C2: the experimental metadata array is used exactly when it is an array
at least as long as `matches` whose elements all carry a numeric `start`, a
numeric `end` and a string `text`.  When it is used, one item per
experimental element is produced in original order, labelled by its `text`
and ranged by its [`start`,`end`) span; in every other case — in particular
when a single element lacks `text` — the items are derived wholly from
`matches` (unlabelled by the experimental data, without ranges): an
all-or-nothing fallback, never a mixture of the two schemas. -/
theorem experimental_all_or_nothing :
    ∀ (table : KindTable) (result : INotebookCompletion),
      (∀ l, claimExperimentField result = some l →
        claimValidExperiment result = true →
        (normalizeResult table result).map (fun c => c.label) =
            l.map (fun item => item.text.getD "") ∧
        (normalizeResult table result).map (fun c => c.range) =
            l.map (fun item => some (item.start.getD 0, item.«end».getD 0))) ∧
      (claimValidExperiment result = false →
        (normalizeResult table result).map (fun c => c.label) = result.«matches» ∧
        (normalizeResult table result).map (fun c => c.range) =
            result.«matches».map (fun _ => none)) := by
  intro table result
  constructor
  · intro l hfield hvalid
    rcases hmd : result.metadata with _ | md
    · rw [claimExperimentField, hmd] at hfield
      cases hfield
    · have hfe : md._jupyter_types_experimental = some l := by
        rw [claimExperimentField, hmd] at hfield
        simpa using hfield
      have hcond : (result.«matches».length ≤ l.length && l.all expItemValid) = true := by
        rw [claimValidExperiment, claimExperimentField, hmd] at hvalid
        simpa [hfe] using hvalid
      have hnorm : normalizeResult table result =
          mapIndexed (fun index item => expItemToCompletion table index item) l := by
        simp [normalizeResult, experimentMatchesOf, hmd, hfe, hcond]
      rw [hnorm]
      exact ⟨exp_branch_labels table l, exp_branch_ranges table l⟩
  · intro hvalid
    rcases hmd : result.metadata with _ | md
    · by_cases hm : result.«matches» = []
      · have hnorm : normalizeResult table result = [] := by
          simp [normalizeResult, experimentMatchesOf, hmd, hm, mapIndexed, mapIndexedFrom]
        rw [hnorm, hm]
        exact ⟨rfl, rfl⟩
      · have hnorm : normalizeResult table result =
            mapIndexed (fun index item => matchToCompletion index item)
              result.«matches» := by
          simp [normalizeResult, experimentMatchesOf, hmd, hm]
        rw [hnorm]
        exact ⟨legacy_branch_labels _, legacy_branch_ranges _⟩
    · rcases hfe : md._jupyter_types_experimental with _ | l
      · have hnorm : normalizeResult table result =
            mapIndexed (fun index item => matchToCompletion index item)
              result.«matches» := by
          simp [normalizeResult, experimentMatchesOf, hmd, hfe]
        rw [hnorm]
        exact ⟨legacy_branch_labels _, legacy_branch_ranges _⟩
      · have hcond : (result.«matches».length ≤ l.length && l.all expItemValid) = false := by
          rw [claimValidExperiment, claimExperimentField, hmd] at hvalid
          simpa [hfe] using hvalid
        have hnorm : normalizeResult table result =
            mapIndexed (fun index item => matchToCompletion index item)
              result.«matches» := by
          simp [normalizeResult, experimentMatchesOf, hmd, hfe, hcond]
        rw [hnorm]
        exact ⟨legacy_branch_labels _, legacy_branch_ranges _⟩

/-- Witness for C2 on the worked example of the spec: two legacy matches
and a valid experimental array of the same length. -/
theorem experimental_all_or_nothing_witness :
    claimExperimentField sampleExperimentalResult = some sampleExpItems ∧
    claimValidExperiment sampleExperimentalResult = true ∧
    ((normalizeResult sampleTable sampleExperimentalResult).map (fun c => c.label) =
        sampleExpItems.map (fun item => item.text.getD "") ∧
      (normalizeResult sampleTable sampleExperimentalResult).map (fun c => c.range) =
        sampleExpItems.map (fun item => some (item.start.getD 0, item.«end».getD 0))) :=
  ⟨rfl, by decide,
    (experimental_all_or_nothing sampleTable sampleExperimentalResult).1
      sampleExpItems rfl (by decide)⟩

/-- C4 counterexample: a valid experimental element whose `type` tag has no
entry in the kind table produces an item with no kind at all (`kind:
undefined`, from `mapJupyterKind.get` missing), not the generic `Field`
kind the claim promises for unknown tags. -/
theorem unknown_tag_yields_no_kind :
    (expItemToCompletion sampleTable 0
        { start := some 2, «end» := some 4, text := some "abcd",
          type := some "unknown-kernel-tag" }).kind = none ∧
    (expItemToCompletion sampleTable 0
        { start := some 2, «end» := some 4, text := some "abcd",
          type := some "unknown-kernel-tag" }).kind ≠ some CompletionItemKind.Field :=
  ⟨rfl, by decide⟩

/-- C4 amended: the produced kind is the kind-mapping table value when the
(truthy) tag has an entry, and the generic `Field` kind when the tag is
absent or the empty string; a truthy tag with no table entry yields no kind
at all rather than `Field`. -/
theorem expItem_kind_mapping :
    ∀ (table : KindTable) (index : Nat) (item : ExpItem),
      (item.type = none →
        (expItemToCompletion table index item).kind = some CompletionItemKind.Field) ∧
      (item.type = some "" →
        (expItemToCompletion table index item).kind = some CompletionItemKind.Field) ∧
      (∀ t k, item.type = some t → ¬ t = "" → mapJupyterKindGet table t = some k →
        (expItemToCompletion table index item).kind = some k) ∧
      (∀ t, item.type = some t → ¬ t = "" → mapJupyterKindGet table t = none →
        (expItemToCompletion table index item).kind = none) := by
  intro table index item
  refine ⟨?_, ?_, ?_, ?_⟩
  · intro h
    simp [expItemToCompletion, h]
  · intro h
    simp [expItemToCompletion, h]
  · intro t k h ht hk
    simp [expItemToCompletion, h, ht, hk]
  · intro t h ht hk
    simp [expItemToCompletion, h, ht, hk]

/-- Witness for C4 (amended): a mapped tag takes the table value and an
absent tag takes the `Field` fallback. -/
theorem expItem_kind_mapping_witness :
    (({ start := some 2, «end» := some 4, text := some "abcd",
        type := some "instance" } : ExpItem).type = some "instance" ∧
      ¬ ("instance" : String) = "" ∧
      mapJupyterKindGet sampleTable "instance" = some 5 ∧
      (expItemToCompletion sampleTable 0
        { start := some 2, «end» := some 4, text := some "abcd",
          type := some "instance" }).kind = some 5) ∧
    (({ start := some 2, «end» := some 4, text := some "abcd",
        type := none } : ExpItem).type = none ∧
      (expItemToCompletion sampleTable 1
        { start := some 2, «end» := some 4, text := some "abcd",
          type := none }).kind = some CompletionItemKind.Field) :=
  ⟨⟨rfl, by decide, rfl,
      (expItem_kind_mapping sampleTable 0
          { start := some 2, «end» := some 4, text := some "abcd",
            type := some "instance" }).2.2.1 "instance" 5 rfl (by decide) rfl⟩,
    ⟨rfl,
      (expItem_kind_mapping sampleTable 1
          { start := some 2, «end» := some 4, text := some "abcd",
            type := none }).1 rfl⟩⟩

/-- C7: when the cancellation token fires before the kernel RPC settles
(including an RPC that never settles) and before the timeout, the timer
branch yields no empty-result sentinel, the kernel branch still settles (the
cancellation promise resolves it with no reply instead of letting it block),
no error arises anywhere (the embedding is total), and
`provideCompletionItems` returns the empty list. -/
theorem cancellation_yields_empty_list :
    ∀ (table : KindTable) (session : SessionEnv) (c timeout : Nat),
      (∀ r : TimedVal RpcReply, session.requestComplete = some r → c < r.time) →
      c < timeout →
      provideCompletionItems table
          { isNotebookCell := true, notebookFound := true,
            kernelSession := some session, cancelTime := some c,
            timeout := timeout } = some [] ∧
      (timerBranch (some c) timeout).val = none ∧
      (getJupyterCompletion session (some c)).isSome = true := by
  intro table session c timeout hrpc hct
  have hcle : c ≤ timeout := Nat.le_of_lt hct
  have htimer : (timerBranch (some c) timeout).val = none := by
    simp [timerBranch, hcle]
  have hg : getJupyterCompletion session (some c) = some { time := 0, val := emptyResult } ∨
      getJupyterCompletion session (some c) = some { time := c, val := emptyResult } := by
    by_cases hb : session.status = "busy"
    · left
      simp [getJupyterCompletion, hb]
    · right
      rcases hr : session.requestComplete with _ | r
      · simp [getJupyterCompletion, hb, hr, race2, createPromiseFromCancellation,
          completionFromReply]
      · have hnot : ¬ r.time ≤ c := Nat.not_le.mpr (hrpc r hr)
        simp [getJupyterCompletion, hb, hr, race2, createPromiseFromCancellation,
          completionFromReply, hnot]
  rcases hg with hg | hg
  · refine ⟨?_, htimer, by rw [hg]; rfl⟩
    simp [provideCompletionItems, hg, race2, timerBranch, normalizeResult,
      experimentMatchesOf, emptyResult, mapIndexed, mapIndexedFrom]
  · refine ⟨?_, htimer, by rw [hg]; rfl⟩
    simp [provideCompletionItems, hg, race2, timerBranch, hcle, normalizeResult,
      experimentMatchesOf, emptyResult, mapIndexed, mapIndexedFrom]

/-- Witness for C7: token fires at 1, the RPC never settles, timeout 5. -/
theorem cancellation_yields_empty_list_witness :
    (1 : Nat) < 5 ∧
    (provideCompletionItems sampleTable
        { isNotebookCell := true, notebookFound := true,
          kernelSession := some { status := "idle", requestComplete := none },
          cancelTime := some 1, timeout := 5 } = some [] ∧
      (timerBranch (some 1) 5).val = none ∧
      (getJupyterCompletion { status := "idle", requestComplete := none }
        (some 1)).isSome = true) :=
  ⟨by decide,
    cancellation_yields_empty_list sampleTable
      { status := "idle", requestComplete := none } 1 5
      (fun r hr => by cases hr) (by decide)⟩

/-- C8: a busy session short-circuits `getJupyterCompletion` to the
empty-result shape at once, and the result is the same whatever the RPC
would have returned — the RPC is not consulted.  When the session is not
busy and the RPC settles first, a reply whose `content` carries `matches`
is mapped into the normalized shape (matches, cursor span, metadata) and
every other reply shape (absent `content`, or `content` without `matches`)
maps to the empty-result shape; no case throws, the function is total, and
every produced value is an `INotebookCompletion`, whose `matches` member is
always present by construction. -/
theorem getJupyterCompletion_busy_and_mapping :
    ∀ (status : String) (rpc rpc2 : Prom RpcReply) (ct : Option Nat),
      (status = "busy" →
        getJupyterCompletion { status := status, requestComplete := rpc } ct =
          some { time := 0, val := emptyResult } ∧
        getJupyterCompletion { status := status, requestComplete := rpc } ct =
          getJupyterCompletion { status := status, requestComplete := rpc2 } ct) ∧
      (¬ status = "busy" →
        ∀ (t : Nat) (reply : RpcReply),
          (∀ c, ct = some c → t ≤ c) →
          (∀ content m, reply.content = some content → content.«matches» = some m →
            getJupyterCompletion
                { status := status, requestComplete := some { time := t, val := reply } }
                ct =
              some { time := t,
                     val := { «matches» := m,
                              cursor := { start := content.cursor_start,
                                          «end» := content.cursor_end },
                              metadata := content.metadata } }) ∧
          (reply.content = none →
            getJupyterCompletion
                { status := status, requestComplete := some { time := t, val := reply } }
                ct =
              some { time := t, val := emptyResult }) ∧
          (∀ content, reply.content = some content → content.«matches» = none →
            getJupyterCompletion
                { status := status, requestComplete := some { time := t, val := reply } }
                ct =
              some { time := t, val := emptyResult })) := by
  intro status rpc rpc2 ct
  constructor
  · intro hb
    constructor
    · simp [getJupyterCompletion, hb]
    · simp [getJupyterCompletion, hb]
  · intro hb t reply hle
    have hwin : race2 (some { time := t, val := some reply })
        (createPromiseFromCancellation ct) =
        some { time := t, val := some reply } := by
      rcases hc : ct with _ | c
      · rfl
      · have := hle c hc
        simp [race2, createPromiseFromCancellation, this]
    refine ⟨?_, ?_, ?_⟩
    · intro content m hcontent hmatches
      simp [getJupyterCompletion, hb, hwin, completionFromReply, hcontent, hmatches]
    · intro hcontent
      simp [getJupyterCompletion, hb, hwin, completionFromReply, hcontent]
    · intro content hcontent hmatches
      simp [getJupyterCompletion, hb, hwin, completionFromReply, hcontent, hmatches]

/-- Witness for C8: the busy short-circuit at one concrete session, and the
matches-carrying mapping at another. -/
theorem getJupyterCompletion_busy_and_mapping_witness :
    (getJupyterCompletion { status := "busy", requestComplete := none } none =

        some { time := 0, val := emptyResult }) ∧
    (getJupyterCompletion
        { status := "idle", requestComplete := some { time := 2, val := sampleReply } }
        (some 5) =
      some { time := 2,
             val := { «matches» := ["os.environ"],
                      cursor := { start := 0, «end» := 9 },
                      metadata := some { _jupyter_types_experimental := none } } }) :=
  ⟨((getJupyterCompletion_busy_and_mapping "busy" none
        (some { time := 3, val := sampleReply }) none).1 rfl).1,
    ((getJupyterCompletion_busy_and_mapping "idle"
        (some { time := 2, val := sampleReply })
        (some { time := 2, val := sampleReply }) (some 5)).2 (by decide) 2 sampleReply
      (fun c hc => by cases hc; decide)).1
      { «matches» := some ["os.environ"], cursor_start := 0, cursor_end := 9,
        metadata := some { _jupyter_types_experimental := none } }
      ["os.environ"] rfl rfl⟩

/-- Witness for C10 at a concrete state and operation. -/
theorem dispose_never_removes_entries_witness :
    removesEntries (.setNotebookOp "docB" 2) = false ∧
    (jsMapGet (⟨[("docA", 1)], none, 0⟩ : RegistryState).notebooks "docA").isSome = true ∧
    (jsMapGet (applyOp (⟨[("docA", 1)], none, 0⟩ : RegistryState)
        (.setNotebookOp "docB" 2)).notebooks "docA").isSome = true :=
  ⟨by decide, by decide,
    dispose_never_removes_entries.2 ⟨[("docA", 1)], none, 0⟩
      (.setNotebookOp "docB" 2) "docA" (by decide) (by decide)⟩

end JupyterSpec
